import Mathlib

/-!
Shallow embedding of `src/motors.c` (brushless motor controller driver).

Machine integers are modelled as `Nat` with explicit `% 2^w` where the C
code truncates (uint8 / uint16).  The external collaborators are modelled
as explicit inputs:
  * `buf : Fin 8 → BLCStatus` — the bytes an `I2CTxThenRx` transaction
    leaves in `blc_status_[i]` (written even when the slot does not
    answer; garbage/stale in that case),
  * `ierr : Fin 8 → Bool` — the value of `I2CError()` after probing
    slot `i` (`true` = no response),
  * `eep_n_motors : Nat` — the byte returned by
    `eeprom_read_byte(&eeprom.n_motors)`.
-/

namespace Motors

/-- The constant `MOTORS_MAX` from motors.c. -/
def MOTORS_MAX : Nat := 8

/-- The constant `MOTORS_BASE_ADDRESS` from motors.c. -/
def MOTORS_BASE_ADDRESS : Nat := 0x52

-- enum BLCStatusCode
def BLC_STATUS_UNKNOWN : Nat := 0
def BLC_STATUS_MISMATCH : Nat := 1
def BLC_STATUS_STARTING : Nat := 40
def BLC_STATUS_V3_FAST_READY : Nat := 248
def BLC_STATUS_V3_READY : Nat := 249
def BLC_STATUS_V2_READY : Nat := 250
def BLC_STATUS_RUNNING_REDUNDANT : Nat := 254
def BLC_STATUS_RUNNING : Nat := 255

-- enum BLCFeatureBitfield
def BLC_FEATURE_EXTENDED_STATUS : Nat := 1
def BLC_FEATURE_V3 : Nat := 2
def BLC_FEATURE_20KHz : Nat := 4

/-- Modelled from the spec: the constants `BLC_ERROR_INCONSISTENT_SETTINGS`,
`BLC_ERROR_MISSING_MOTOR` and `BLC_ERROR_EXTRA_MOTOR` are declared in
`motors.h`, which is not part of the sources; the spec only says the error
bitfield holds three distinct sticky bits (inconsistent settings, missing
motor, extra motor), so they are modelled as three distinct bits. -/
def BLC_ERROR_INCONSISTENT_SETTINGS : Nat := 1

/-- Modelled from the spec: see `BLC_ERROR_INCONSISTENT_SETTINGS`. -/
def BLC_ERROR_MISSING_MOTOR : Nat := 2

/-- Modelled from the spec: see `BLC_ERROR_INCONSISTENT_SETTINGS`. -/
def BLC_ERROR_EXTRA_MOTOR : Nat := 4

/-- The C `struct MotorSetpoint`: the two packed setpoint bytes of one slot. -/
structure MotorSetpoint where
  bits_11_to_3 : Nat
  bits_2_to_0 : Nat
deriving DecidableEq

/-- The C `struct BLCStatus`: the 9-byte telemetry record of one slot. -/
structure BLCStatus where
  current : Nat
  status_code : Nat
  temperature : Nat
  rpm : Nat
  extra : Nat
  voltage : Nat
  i2c_errors : Nat
  version_major : Nat
  version_minor : Nat
deriving DecidableEq

/-- The process-wide mutable state of motors.c. -/
structure MotorsState where
  setpoints : Fin 8 → MotorSetpoint
  blc_status : Fin 8 → BLCStatus
  blc_error_bitfield : Nat
  blc_feature_bitfield : Nat
  n_motors : Nat
  setpoint_length : Nat
  comms_in_progress : Nat

/-- The state at program start: the globals of motors.c are
zero-initialized except `setpoint_length_ = sizeof(uint8_t) = 1`
(`comms_in_progress_` is an uninitialized static, hence 0 in BSS). -/
def motorsInit : MotorsState where
  setpoints := fun _ => { bits_11_to_3 := 0, bits_2_to_0 := 0 }
  blc_status := fun _ => ⟨0, 0, 0, 0, 0, 0, 0, 0, 0⟩
  blc_error_bitfield := 0
  blc_feature_bitfield := 0
  n_motors := 0
  setpoint_length := 1
  comms_in_progress := 0

/-- C logical not `!x`: 1 when the operand is zero, 0 otherwise
(motors.c lines 150 and 152 apply `!` to the presence bitmap / mask). -/
def cNot (x : Nat) : Nat := if x = 0 then 1 else 0

/-- Accumulator of the probe loop in `DetectMotors`: the status array
together with the loop-local variables `motors` (presence bitfield),
`blc_status_code` (reference code) and the error bitfield. -/
structure DetectAcc where
  status : Fin 8 → BLCStatus
  motors : Nat
  ref : Nat
  err : Nat

/-- One iteration of the probe loop of `DetectMotors` (body of the
`for` loop, lines 114–130): the transaction overwrites `blc_status_[i]`
with the received bytes; on success the slot is marked present and its
status code is checked against the reference code. -/
def detectStep (buf : Fin 8 → BLCStatus) (ierr : Fin 8 → Bool)
    (acc : DetectAcc) (i : Fin 8) : DetectAcc :=
  let status := Function.update acc.status i (buf i)
  if ierr i then
    { acc with status := status }
  else
    let motors := acc.motors ||| (1 <<< i.val)
    if acc.ref = BLC_STATUS_UNKNOWN then
      { status := status, motors := motors, ref := (buf i).status_code,
        err := acc.err }
    else if (buf i).status_code ≠ acc.ref then
      { status := status, motors := motors, ref := acc.ref,
        err := acc.err ||| BLC_ERROR_INCONSISTENT_SETTINGS }
    else
      { status := status, motors := motors, ref := acc.ref, err := acc.err }

/-- The probe loop `for (i = k; i < 8; i++)`, with `fuel` bounding the
remaining iterations (the loop itself is `detectLoopAux 8 0`). -/
def detectLoopAux (buf : Fin 8 → BLCStatus) (ierr : Fin 8 → Bool) :
    Nat → Nat → DetectAcc → DetectAcc
  | 0, _, acc => acc
  | fuel + 1, k, acc =>
    if h : k < 8 then
      detectLoopAux buf ierr fuel (k + 1) (detectStep buf ierr acc ⟨k, h⟩)
    else acc

/-- The accumulator after the whole probe loop of `DetectMotors`,
started from state `s` (`motors = 0`, `blc_status_code = UNKNOWN`). -/
def detectAcc (s : MotorsState) (buf : Fin 8 → BLCStatus)
    (ierr : Fin 8 → Bool) : DetectAcc :=
  detectLoopAux buf ierr 8 0
    { status := s.blc_status, motors := 0, ref := BLC_STATUS_UNKNOWN,
      err := s.blc_error_bitfield }

/-- The fall-through `switch (blc_status_code)` of `DetectMotors`
(lines 133–145): returns the new feature bitfield and setpoint length. -/
def blcFeatureCascade (code feat splen : Nat) : Nat × Nat :=
  if code = BLC_STATUS_V3_FAST_READY then
    (feat ||| BLC_FEATURE_20KHz ||| BLC_FEATURE_V3 |||
      BLC_FEATURE_EXTENDED_STATUS, 2)
  else if code = BLC_STATUS_V3_READY then
    (feat ||| BLC_FEATURE_V3 ||| BLC_FEATURE_EXTENDED_STATUS, 2)
  else if code = BLC_STATUS_V2_READY then
    (feat ||| BLC_FEATURE_EXTENDED_STATUS, 2)
  else (feat, splen)

/-- The function `DetectMotors` (motors.c lines 105–154): probe loop, feature
cascade, then the missing/extra checks.  Note lines 150 and 152 use the
C logical not `!` (not bitwise `~`) on the presence bitmap / mask. -/
def DetectMotors (s : MotorsState) (buf : Fin 8 → BLCStatus)
    (ierr : Fin 8 → Bool) (eep_n_motors : Nat) : MotorsState :=
  let acc := detectAcc s buf ierr
  let fs := blcFeatureCascade acc.ref s.blc_feature_bitfield s.setpoint_length
  let n := eep_n_motors % 256
  let err :=
    if (((1 <<< n) - 1) &&& cNot acc.motors) ≠ 0 then
      acc.err ||| BLC_ERROR_MISSING_MOTOR
    else acc.err
  let err :=
    if (acc.motors &&& cNot ((1 <<< n) - 1)) ≠ 0 then
      err ||| BLC_ERROR_EXTRA_MOTOR
    else err
  { s with blc_status := acc.status, blc_error_bitfield := err,
           blc_feature_bitfield := fs.1, setpoint_length := fs.2,
           n_motors := n }

/-- The function `SetMotorSetpoint` (motors.c lines 157–162).  `address` models the
`uint8_t` parameter and `setpoint` the `uint16_t` parameter, hence the
`% 256` / `% 65536` truncations at entry. -/
def SetMotorSetpoint (s : MotorsState) (address setpoint : Nat) :
    MotorsState :=
  let address := address % 256
  let setpoint := setpoint % 65536
  let packed : MotorSetpoint :=
    { bits_2_to_0 := (setpoint % 256) &&& 0x7,
      bits_11_to_3 := (setpoint >>> 3) % 256 }
  if h : address < 8 then
    { s with setpoints := Function.update s.setpoints ⟨address, h⟩ packed }
  else s

/-- Decoder described by the spec: the low 3 bits of one byte plus the
other byte shifted left by 3. -/
def decodeSetpoint (p : MotorSetpoint) : Nat :=
  (p.bits_2_to_0 &&& 0x7) + (p.bits_11_to_3 <<< 3)

/-- The slot addresses visited by the transmission chain when the
in-flight cursor starts at `c`: `TxMotorSetpoint(c)` is issued, and the
continuation `TxNextMotorSetpoint` re-issues at `c-1` while the
pre-decrement cursor is non-zero (motors.c lines 175–178). -/
def txChainFrom : Nat → List Nat
  | 0 => [0]
  | c + 1 => (c + 1) :: txChainFrom c

/-- The initial in-flight cursor of `TxMotorSetpoints`:
`comms_in_progress_ = n_motors_ - 1` in uint8 arithmetic (line 167). -/
def txStartCursor (n : Nat) : Nat := (n % 256 + 255) % 256

/-- The slot addresses of all transactions issued by one call to
`TxMotorSetpoints` with stored motor count `n`. -/
def txTransactions (n : Nat) : List Nat := txChainFrom (txStartCursor n)

/-- Effect of one `TxMotorSetpoint(address)` on the status array: the
transaction deposits a 9-byte status response into
`blc_status_[address]` (an address ≥ 8 would index out of bounds in C,
see the C9 analysis; the model only represents in-range writes). -/
def txWrite (rx : Fin 8 → BLCStatus) (st : Fin 8 → BLCStatus)
    (address : Nat) : Fin 8 → BLCStatus :=
  if h : address < 8 then Function.update st ⟨address, h⟩ (rx ⟨address, h⟩)
  else st

/-- State effect of a completed `TxMotorSetpoints` chain: every visited
slot's status record is refreshed with the received response `rx`, and
the cursor ends at 255 (post-decrement wrap of 0 in the final
`TxNextMotorSetpoint`).  The error and feature bitfields, the setpoint
store, the motor count and the setpoint length are untouched. -/
def TxMotorSetpoints_run (s : MotorsState) (rx : Fin 8 → BLCStatus) :
    MotorsState :=
  { s with blc_status := (txTransactions s.n_motors).foldl (txWrite rx)
             s.blc_status,
           comms_in_progress := 255 }

/-- Accessor `BLCErrorBitfield` (motors.c lines 92–95). -/
def BLCErrorBitfield (s : MotorsState) : Nat := s.blc_error_bitfield

/-- A state whose error bitfield already has bit 0 set. -/
def motorsInitErr1 : MotorsState :=
  { motorsInit with blc_error_bitfield := 1 }

/-- Only slots 0 and 1 respond. -/
def ierrTwoSlots : Fin 8 → Bool := fun i => decide (1 < i.val)

/-- Slot 0 reports status code 0 (UNKNOWN), slot 1 reports 40. -/
def bufRefZero : Fin 8 → BLCStatus :=
  fun i => if i.val = 1 then ⟨0, 40, 0, 0, 0, 0, 0, 0, 0⟩
           else ⟨0, 0, 0, 0, 0, 0, 0, 0, 0⟩

/-- Slot 0 reports status code 40, every other slot reports code 0. -/
def bufZeroAfterRef : Fin 8 → BLCStatus :=
  fun i => if i.val = 0 then ⟨0, 40, 0, 0, 0, 0, 0, 0, 0⟩
           else ⟨0, 0, 0, 0, 0, 0, 0, 0, 0⟩

/-- Slot 0 reports status code 40, slot 1 reports 41. -/
def bufTwoCodes : Fin 8 → BLCStatus :=
  fun i => if i.val = 0 then ⟨0, 40, 0, 0, 0, 0, 0, 0, 0⟩
           else ⟨0, 41, 0, 0, 0, 0, 0, 0, 0⟩

/-- Slot 0 reports status code 0, slot 1 reports 9. -/
def bufZeroThenNine : Fin 8 → BLCStatus :=
  fun i => if i.val = 0 then ⟨0, 0, 0, 0, 0, 0, 0, 0, 0⟩
           else ⟨0, 9, 0, 0, 0, 0, 0, 0, 0⟩

end Motors

namespace Motors

theorem and_mask_or (x a m : Nat) (h : a &&& m = 0) :
    (x ||| a) &&& m = x &&& m := by
  refine Nat.eq_of_testBit_eq fun i => ?_
  have h' : (a &&& m).testBit i = false := by simp [h]
  simp only [Nat.testBit_and, Nat.testBit_or] at h' ⊢
  rcases hx : x.testBit i <;> rcases ha : a.testBit i <;>
    rcases hm : m.testBit i <;> simp_all

theorem and_one_ne_iff (x : Nat) : x &&& 1 ≠ 0 ↔ x.testBit 0 = true := by
  rw [Nat.and_one_is_mod, ← Nat.mod_two_eq_one_iff_testBit_zero]
  omega

theorem detectStep_err_mono (buf : Fin 8 → BLCStatus) (ierr : Fin 8 → Bool)
    (acc : DetectAcc) (i : Fin 8) (b : Nat)
    (h : acc.err.testBit b = true) :
    (detectStep buf ierr acc i).err.testBit b = true := by
  simp only [detectStep]
  split_ifs <;> simp [Nat.testBit_or, h]

theorem detectLoopAux_err_mono (buf : Fin 8 → BLCStatus)
    (ierr : Fin 8 → Bool) :
    ∀ fuel k acc b, acc.err.testBit b = true →
      ((detectLoopAux buf ierr fuel k acc).err.testBit b) = true := by
  intro fuel
  induction fuel with
  | zero => intro k acc b h; simpa [detectLoopAux] using h
  | succ fuel ih =>
    intro k acc b h
    rw [detectLoopAux]
    split
    · exact ih _ _ _ (detectStep_err_mono buf ierr acc _ b h)
    · exact h

end Motors

namespace Motors

theorem detectStep_noresp (buf : Fin 8 → BLCStatus) (ierr : Fin 8 → Bool)
    (acc : DetectAcc) (i : Fin 8) (h : ierr i = true) :
    detectStep buf ierr acc i =
      { acc with status := Function.update acc.status i (buf i) } := by
  simp [detectStep, h]

theorem detectStep_resp_ref0 (buf : Fin 8 → BLCStatus) (ierr : Fin 8 → Bool)
    (acc : DetectAcc) (i : Fin 8) (h : ierr i = false) (h0 : acc.ref = 0) :
    detectStep buf ierr acc i =
      { status := Function.update acc.status i (buf i),
        motors := acc.motors ||| (1 <<< i.val),
        ref := (buf i).status_code, err := acc.err } := by
  simp [detectStep, BLC_STATUS_UNKNOWN, h, h0]

theorem detectStep_resp_ne (buf : Fin 8 → BLCStatus) (ierr : Fin 8 → Bool)
    (acc : DetectAcc) (i : Fin 8) (h : ierr i = false) (h0 : acc.ref ≠ 0)
    (hne : (buf i).status_code ≠ acc.ref) :
    detectStep buf ierr acc i =
      { status := Function.update acc.status i (buf i),
        motors := acc.motors ||| (1 <<< i.val),
        ref := acc.ref,
        err := acc.err ||| BLC_ERROR_INCONSISTENT_SETTINGS } := by
  simp [detectStep, BLC_STATUS_UNKNOWN, h, h0, hne]

theorem detectStep_resp_eq (buf : Fin 8 → BLCStatus) (ierr : Fin 8 → Bool)
    (acc : DetectAcc) (i : Fin 8) (h : ierr i = false) (h0 : acc.ref ≠ 0)
    (heq : (buf i).status_code = acc.ref) :
    detectStep buf ierr acc i =
      { status := Function.update acc.status i (buf i),
        motors := acc.motors ||| (1 <<< i.val),
        ref := acc.ref, err := acc.err } := by
  simp [detectStep, BLC_STATUS_UNKNOWN, h, h0, heq]

end Motors

namespace Motors

theorem detectLoopAux_ref_stable (buf : Fin 8 → BLCStatus)
    (ierr : Fin 8 → Bool) :
    ∀ fuel k acc, acc.ref ≠ 0 →
      (detectLoopAux buf ierr fuel k acc).ref = acc.ref := by
  intro fuel
  induction fuel with
  | zero => intro k acc h; simp [detectLoopAux]
  | succ fuel ih =>
    intro k acc h
    rw [detectLoopAux]
    split
    · rcases hie : ierr ⟨k, by omega⟩ with _ | _
      · by_cases hc : (buf ⟨k, by omega⟩).status_code = acc.ref
        · rw [detectStep_resp_eq buf ierr acc _ hie h hc, ih]; exact h
        · rw [detectStep_resp_ne buf ierr acc _ hie h hc, ih]; exact h
      · rw [detectStep_noresp buf ierr acc _ hie, ih]; exact h
    · rfl

end Motors

namespace Motors

theorem testBit_or_one (x : Nat) : (x ||| 1).testBit 0 = true := by
  simp [Nat.testBit_or]

theorem detectLoopAux_mismatch (buf : Fin 8 → BLCStatus)
    (ierr : Fin 8 → Bool) :
    ∀ fuel k acc (j : Fin 8), 8 ≤ k + fuel → k ≤ j.val → acc.ref ≠ 0 →
      ierr j = false → (buf j).status_code ≠ acc.ref →
      (detectLoopAux buf ierr fuel k acc).err.testBit 0 = true := by
  intro fuel
  induction fuel with
  | zero => intro k acc j hfuel hkj _ _ _; have := j.isLt; omega
  | succ fuel ih =>
    intro k acc j hfuel hkj href hj hne
    have hk8 : k < 8 := by have := j.isLt; omega
    rw [detectLoopAux]
    rw [dif_pos hk8]
    by_cases hkj' : k = j.val
    · have hj' : (⟨k, hk8⟩ : Fin 8) = j := Fin.ext hkj'
      rw [hj', detectStep_resp_ne buf ierr acc j hj href hne]
      exact detectLoopAux_err_mono buf ierr fuel (k + 1) _ 0
        (testBit_or_one acc.err)
    · have hlt : k + 1 ≤ j.val := by omega
      rcases hie : ierr ⟨k, hk8⟩ with _ | _
      · by_cases hc : (buf ⟨k, hk8⟩).status_code = acc.ref
        · rw [detectStep_resp_eq buf ierr acc _ hie href hc]
          exact ih (k + 1) _ j (by omega) hlt href hj hne
        · rw [detectStep_resp_ne buf ierr acc _ hie href hc]
          exact detectLoopAux_err_mono buf ierr fuel (k + 1) _ 0
            (testBit_or_one acc.err)
      · rw [detectStep_noresp buf ierr acc _ hie]
        exact ih (k + 1) _ j (by omega) hlt href hj hne

end Motors

namespace Motors

theorem detectLoopAux_first_mismatch (buf : Fin 8 → BLCStatus)
    (ierr : Fin 8 → Bool) :
    ∀ fuel k acc (i j : Fin 8), 8 ≤ k + fuel → k ≤ i.val → i < j →
      acc.ref = 0 →
      (∀ m : Fin 8, k ≤ m.val → m < i → ierr m = false →
        (buf m).status_code = 0) →
      ierr i = false → (buf i).status_code ≠ 0 →
      ierr j = false → (buf j).status_code ≠ (buf i).status_code →
      (detectLoopAux buf ierr fuel k acc).err.testBit 0 = true := by
  intro fuel
  induction fuel with
  | zero => intro k acc i j hfuel hki _ _ _ _ _ _ _; have := i.isLt; omega
  | succ fuel ih =>
    intro k acc i j hfuel hki hij href hzero hi hinz hj hne
    have hk8 : k < 8 := by have := i.isLt; omega
    rw [detectLoopAux, dif_pos hk8]
    by_cases hki' : k = i.val
    · have hi' : (⟨k, hk8⟩ : Fin 8) = i := Fin.ext hki'
      have hij' : i.val < j.val := Fin.lt_def.mp hij
      rw [hi', detectStep_resp_ref0 buf ierr acc i hi href]
      exact detectLoopAux_mismatch buf ierr fuel (k + 1) _ j (by omega)
        (by omega) hinz hj hne
    · have hlt : k + 1 ≤ i.val := by omega
      rcases hie : ierr ⟨k, hk8⟩ with _ | _
      · have hz : (buf ⟨k, hk8⟩).status_code = 0 :=
          hzero ⟨k, hk8⟩ le_rfl (Fin.lt_def.mpr (show k < i.val by omega)) hie
        rw [detectStep_resp_ref0 buf ierr acc _ hie href]
        refine ih (k + 1) _ i j (by omega) hlt hij (by simpa using hz)
          (fun m hm hmi hmr => hzero m (by omega) hmi hmr) hi hinz hj hne
      · rw [detectStep_noresp buf ierr acc _ hie]
        exact ih (k + 1) _ i j (by omega) hlt hij href
          (fun m hm hmi hmr => hzero m (by omega) hmi hmr) hi hinz hj hne

end Motors

namespace Motors

theorem detectLoopAux_first_ref (buf : Fin 8 → BLCStatus)
    (ierr : Fin 8 → Bool) :
    ∀ fuel k acc (i : Fin 8), 8 ≤ k + fuel → k ≤ i.val → acc.ref = 0 →
      (∀ m : Fin 8, k ≤ m.val → m < i → ierr m = false →
        (buf m).status_code = 0) →
      ierr i = false → (buf i).status_code ≠ 0 →
      (detectLoopAux buf ierr fuel k acc).ref = (buf i).status_code := by
  intro fuel
  induction fuel with
  | zero => intro k acc i hfuel hki _ _ _ _; have := i.isLt; omega
  | succ fuel ih =>
    intro k acc i hfuel hki href hzero hi hinz
    have hk8 : k < 8 := by have := i.isLt; omega
    rw [detectLoopAux, dif_pos hk8]
    by_cases hki' : k = i.val
    · have hi' : (⟨k, hk8⟩ : Fin 8) = i := Fin.ext hki'
      rw [hi', detectStep_resp_ref0 buf ierr acc i hi href]
      exact detectLoopAux_ref_stable buf ierr fuel (k + 1) _ hinz
    · have hlt : k + 1 ≤ i.val := by omega
      rcases hie : ierr ⟨k, hk8⟩ with _ | _
      · have hz : (buf ⟨k, hk8⟩).status_code = 0 :=
          hzero ⟨k, hk8⟩ le_rfl (Fin.lt_def.mpr (show k < i.val by omega)) hie
        rw [detectStep_resp_ref0 buf ierr acc _ hie href]
        exact ih (k + 1) _ i (by omega) hlt (by simpa using hz)
          (fun m hm hmi hmr => hzero m (by omega) hmi hmr) hi hinz
      · rw [detectStep_noresp buf ierr acc _ hie]
        exact ih (k + 1) _ i (by omega) hlt href
          (fun m hm hmi hmr => hzero m (by omega) hmi hmr) hi hinz

theorem detectLoopAux_all_eq (buf : Fin 8 → BLCStatus)
    (ierr : Fin 8 → Bool) :
    ∀ fuel k acc (c : Nat), (acc.ref = 0 ∨ acc.ref = c) →
      (∀ m : Fin 8, k ≤ m.val → ierr m = false →
        (buf m).status_code = c) →
      (detectLoopAux buf ierr fuel k acc).err = acc.err := by
  intro fuel
  induction fuel with
  | zero => intro k acc c _ _; simp [detectLoopAux]
  | succ fuel ih =>
    intro k acc c href hall
    rw [detectLoopAux]
    split
    · rename_i hk8
      have hnext : ∀ m : Fin 8, k + 1 ≤ m.val → ierr m = false →
          (buf m).status_code = c := fun m hm hmr => hall m (by omega) hmr
      rcases hie : ierr ⟨k, hk8⟩ with _ | _
      · have hc : (buf ⟨k, hk8⟩).status_code = c := hall _ le_rfl hie
        rcases href with href | href
        · rw [detectStep_resp_ref0 buf ierr acc _ hie href]
          exact ih (k + 1) _ c (Or.inr hc) hnext
        · by_cases hc0 : acc.ref = 0
          · rw [detectStep_resp_ref0 buf ierr acc _ hie hc0]
            exact ih (k + 1) _ c (Or.inr hc) hnext
          · rw [detectStep_resp_eq buf ierr acc _ hie hc0 (hc.trans href.symm)]
            exact ih (k + 1) _ c (Or.inr href) hnext
      · rw [detectStep_noresp buf ierr acc _ hie]
        exact ih (k + 1) _ c (by simpa using href) hnext
    · rfl

end Motors

namespace Motors

theorem detectStep_motors_mono (buf : Fin 8 → BLCStatus)
    (ierr : Fin 8 → Bool) (acc : DetectAcc) (i : Fin 8) (b : Nat)
    (h : acc.motors.testBit b = true) :
    (detectStep buf ierr acc i).motors.testBit b = true := by
  simp only [detectStep]
  split_ifs <;> simp [Nat.testBit_or, h]

theorem detectLoopAux_motors_mono (buf : Fin 8 → BLCStatus)
    (ierr : Fin 8 → Bool) :
    ∀ fuel k acc b, acc.motors.testBit b = true →
      ((detectLoopAux buf ierr fuel k acc).motors.testBit b) = true := by
  intro fuel
  induction fuel with
  | zero => intro k acc b h; simpa [detectLoopAux] using h
  | succ fuel ih =>
    intro k acc b h
    rw [detectLoopAux]
    split
    · exact ih _ _ _ (detectStep_motors_mono buf ierr acc _ b h)
    · exact h

theorem detectLoopAux_present (buf : Fin 8 → BLCStatus)
    (ierr : Fin 8 → Bool) :
    ∀ fuel k acc (i : Fin 8), 8 ≤ k + fuel → k ≤ i.val →
      ierr i = false →
      (detectLoopAux buf ierr fuel k acc).motors.testBit i.val = true := by
  intro fuel
  induction fuel with
  | zero => intro k acc i hfuel hki _; have := i.isLt; omega
  | succ fuel ih =>
    intro k acc i hfuel hki hi
    have hk8 : k < 8 := by have := i.isLt; omega
    rw [detectLoopAux, dif_pos hk8]
    by_cases hki' : k = i.val
    · have hi' : (⟨k, hk8⟩ : Fin 8) = i := Fin.ext hki'
      have hset : (detectStep buf ierr acc ⟨k, hk8⟩).motors.testBit i.val =
          true := by
        rw [hi']
        simp only [detectStep]
        split_ifs with h1 h2 h3
        · exact absurd hi (by simp [h1])
        · simp [Nat.testBit_or, Nat.testBit_shiftLeft]
        · simp [Nat.testBit_or, Nat.testBit_shiftLeft]
        · simp [Nat.testBit_or, Nat.testBit_shiftLeft]
      exact detectLoopAux_motors_mono buf ierr fuel (k + 1) _ i.val hset
    · exact ih (k + 1) _ i (by omega) (by omega) hi

theorem detectLoopAux_ordered_mixed (buf : Fin 8 → BLCStatus)
    (ierr : Fin 8 → Bool) :
    ∀ fuel k acc (c : Nat), c ≠ 0 →
      (acc.ref = 0 ∨ (acc.ref = c ∧ ∀ m : Fin 8, k ≤ m.val →
        ierr m = false → (buf m).status_code = c)) →
      (∀ m : Fin 8, k ≤ m.val → ierr m = false →
        ((buf m).status_code = 0 ∨ (buf m).status_code = c)) →
      (∀ m₁ m₂ : Fin 8, k ≤ m₁.val → k ≤ m₂.val → ierr m₁ = false →
        ierr m₂ = false → (buf m₁).status_code = 0 →
        (buf m₂).status_code = c → m₁ < m₂) →
      (detectLoopAux buf ierr fuel k acc).err = acc.err := by
  intro fuel
  induction fuel with
  | zero => intro k acc c _ _ _ _; simp [detectLoopAux]
  | succ fuel ih =>
    intro k acc c hc href hall hord
    rw [detectLoopAux]
    split
    · rename_i hk8
      have hall' : ∀ m : Fin 8, k + 1 ≤ m.val → ierr m = false →
          ((buf m).status_code = 0 ∨ (buf m).status_code = c) :=
        fun m hm hmr => hall m (by omega) hmr
      have hord' : ∀ m₁ m₂ : Fin 8, k + 1 ≤ m₁.val → k + 1 ≤ m₂.val →
          ierr m₁ = false → ierr m₂ = false → (buf m₁).status_code = 0 →
          (buf m₂).status_code = c → m₁ < m₂ :=
        fun m₁ m₂ h1 h2 e1 e2 b1 b2 => hord m₁ m₂ (by omega) (by omega) e1 e2 b1 b2
      rcases hie : ierr ⟨k, hk8⟩ with _ | _
      · rcases hall ⟨k, hk8⟩ le_rfl hie with h0 | hcc
        · -- slot k responds with code 0
          have hrz : acc.ref = 0 := by
            rcases href with h | ⟨hrc, hallc⟩
            · exact h
            · exact absurd (hallc ⟨k, hk8⟩ le_rfl hie) (by simp [h0]; omega)
          rw [detectStep_resp_ref0 buf ierr acc _ hie hrz]
          refine ih (k + 1) _ c hc (Or.inl (by simpa using h0)) hall' hord'
        · -- slot k responds with code c
          rcases href with hrz | ⟨hrc, hallc⟩
          · rw [detectStep_resp_ref0 buf ierr acc _ hie hrz]
            refine ih (k + 1) _ c hc (Or.inr ⟨by simpa using hcc, ?_⟩)
              hall' hord'
            intro m hm hmr
            rcases hall m (by omega) hmr with hm0 | hmc
            · exact absurd (hord m ⟨k, hk8⟩ (by omega) le_rfl hmr hie hm0 hcc)
                (by simp [Fin.lt_def]; omega)
            · exact hmc
          · have hrnz : acc.ref ≠ 0 := by rw [hrc]; exact hc
            rw [detectStep_resp_eq buf ierr acc _ hie hrnz (by rw [hcc, hrc])]
            exact ih (k + 1) _ c hc
              (Or.inr ⟨hrc, fun m hm hmr => hallc m (by omega) hmr⟩)
              hall' hord'
      · rw [detectStep_noresp buf ierr acc _ hie]
        refine ih (k + 1) _ c hc ?_ hall' hord'
        rcases href with h | ⟨hrc, hallc⟩
        · exact Or.inl (by simpa using h)
        · exact Or.inr ⟨by simpa using hrc,
            fun m hm hmr => hallc m (by omega) hmr⟩
    · rfl

end Motors

namespace Motors

theorem DetectMotors_feat (s : MotorsState) (buf : Fin 8 → BLCStatus)
    (ierr : Fin 8 → Bool) (n : Nat) :
    (DetectMotors s buf ierr n).blc_feature_bitfield =
      (blcFeatureCascade (detectAcc s buf ierr).ref s.blc_feature_bitfield
        s.setpoint_length).1 := rfl

theorem DetectMotors_splen (s : MotorsState) (buf : Fin 8 → BLCStatus)
    (ierr : Fin 8 → Bool) (n : Nat) :
    (DetectMotors s buf ierr n).setpoint_length =
      (blcFeatureCascade (detectAcc s buf ierr).ref s.blc_feature_bitfield
        s.setpoint_length).2 := rfl

theorem DetectMotors_err_testBit_mono (s : MotorsState)
    (buf : Fin 8 → BLCStatus) (ierr : Fin 8 → Bool) (n b : Nat)
    (h : (detectAcc s buf ierr).err.testBit b = true) :
    (DetectMotors s buf ierr n).blc_error_bitfield.testBit b = true := by
  simp only [DetectMotors]
  split_ifs <;> simp [Nat.testBit_or, h]

theorem DetectMotors_err_and_mask (s : MotorsState)
    (buf : Fin 8 → BLCStatus) (ierr : Fin 8 → Bool) (n m : Nat)
    (h2 : BLC_ERROR_MISSING_MOTOR &&& m = 0)
    (h4 : BLC_ERROR_EXTRA_MOTOR &&& m = 0) :
    (DetectMotors s buf ierr n).blc_error_bitfield &&& m =
      (detectAcc s buf ierr).err &&& m := by
  have e2 := fun x => and_mask_or x BLC_ERROR_MISSING_MOTOR m h2
  have e4 := fun x => and_mask_or x BLC_ERROR_EXTRA_MOTOR m h4
  simp only [DetectMotors]
  split_ifs <;> simp only [e2, e4]

theorem SetMotorSetpoint_err (s : MotorsState) (a v : Nat) :
    (SetMotorSetpoint s a v).blc_error_bitfield = s.blc_error_bitfield := by
  simp only [SetMotorSetpoint]
  split_ifs <;> rfl

end Motors

namespace Motors

theorem txChainFrom_eq_reverse_range :
    ∀ c, txChainFrom c = (List.range (c + 1)).reverse := by
  intro c
  induction c with
  | zero => rfl
  | succ c ih =>
    have h2 : (List.range (c + 1 + 1)).reverse =
        (c + 1) :: (List.range (c + 1)).reverse := by
      rw [List.range_succ]
      simp
    rw [txChainFrom, ih, h2]

theorem mem_txChainFrom (c a : Nat) : a ∈ txChainFrom c ↔ a ≤ c := by
  rw [txChainFrom_eq_reverse_range]
  simp [List.mem_reverse, List.mem_range]
  omega

theorem txChainFrom_chain (c : Nat) :
    List.Chain' (· > ·) (txChainFrom c) := by
  induction c with
  | zero => simp [txChainFrom]
  | succ c ih =>
    obtain ⟨t, ht⟩ : ∃ t, txChainFrom c = c :: t := by
      cases c
      · exact ⟨[], rfl⟩
      · exact ⟨_, rfl⟩
    rw [txChainFrom, ht]
    exact List.chain'_cons.mpr ⟨by omega, ht ▸ ih⟩

end Motors

namespace Motors

/-- C4: storing a setpoint and decoding the two packed bytes yields the
value modulo 2048; in particular values in [0, 2047] round-trip. -/
theorem SetMotorSetpoint_roundtrip (s : MotorsState) (a v : Nat)
    (ha : a < 8) :
    decodeSetpoint ((SetMotorSetpoint s a v).setpoints ⟨a, ha⟩) =
      v % 2048 ∧
    (v < 2048 →
      decodeSetpoint ((SetMotorSetpoint s a v).setpoints ⟨a, ha⟩) = v) := by
  have hmod : a % 256 = a := Nat.mod_eq_of_lt (by omega)
  have hand : ∀ x : Nat, x &&& 7 = x % 8 :=
    fun x => Nat.and_pow_two_sub_one_eq_mod x 3
  have hmain :
      decodeSetpoint ((SetMotorSetpoint s a v).setpoints ⟨a, ha⟩) =
        v % 2048 := by
    simp only [SetMotorSetpoint, hmod, dif_pos ha, Function.update_same,
      decodeSetpoint]
    rw [Nat.shiftRight_eq_div_pow, Nat.shiftLeft_eq, hand, hand]
    norm_num
    omega
  exact ⟨hmain, fun hv => by rw [hmain]; omega⟩

/-- C5: a setpoint write to an out-of-range slot index is a no-op on the
whole state. -/
theorem SetMotorSetpoint_out_of_range_noop (s : MotorsState) (a v : Nat)
    (h8 : 8 ≤ a) (h256 : a < 256) :
    SetMotorSetpoint s a v = s := by
  have hmod : a % 256 = a := Nat.mod_eq_of_lt h256
  simp only [SetMotorSetpoint, hmod]
  rw [dif_neg (by omega)]

theorem SetMotorSetpoint_roundtrip_witness :
    decodeSetpoint ((SetMotorSetpoint motorsInit 3 5000).setpoints
      ⟨3, by decide⟩) = 5000 % 2048 ∧
    (5000 < 2048 →
      decodeSetpoint ((SetMotorSetpoint motorsInit 3 5000).setpoints
        ⟨3, by decide⟩) = 5000) :=
  SetMotorSetpoint_roundtrip motorsInit 3 5000 (by decide)

theorem SetMotorSetpoint_out_of_range_noop_witness :
    SetMotorSetpoint motorsInit 9 123 = motorsInit :=
  SetMotorSetpoint_out_of_range_noop motorsInit 9 123 (by decide) (by decide)

end Motors

namespace Motors

/-- C3: feature cascade from the reference status code established by the
probe loop, starting from an empty feature bitfield and 1-byte width. -/
theorem DetectMotors_feature_cascade (s : MotorsState)
    (buf : Fin 8 → BLCStatus) (ierr : Fin 8 → Bool) (n : Nat)
    (hf : s.blc_feature_bitfield = 0) (hl : s.setpoint_length = 1) :
    ((detectAcc s buf ierr).ref = BLC_STATUS_V3_FAST_READY →
      (DetectMotors s buf ierr n).blc_feature_bitfield =
        (BLC_FEATURE_20KHz ||| BLC_FEATURE_V3 |||
          BLC_FEATURE_EXTENDED_STATUS) ∧
      (DetectMotors s buf ierr n).setpoint_length = 2) ∧
    ((detectAcc s buf ierr).ref = BLC_STATUS_V3_READY →
      (DetectMotors s buf ierr n).blc_feature_bitfield =
        (BLC_FEATURE_V3 ||| BLC_FEATURE_EXTENDED_STATUS) ∧
      (DetectMotors s buf ierr n).setpoint_length = 2) ∧
    ((detectAcc s buf ierr).ref = BLC_STATUS_V2_READY →
      (DetectMotors s buf ierr n).blc_feature_bitfield =
        BLC_FEATURE_EXTENDED_STATUS ∧
      (DetectMotors s buf ierr n).setpoint_length = 2) ∧
    ((detectAcc s buf ierr).ref ≠ BLC_STATUS_V3_FAST_READY →
      (detectAcc s buf ierr).ref ≠ BLC_STATUS_V3_READY →
      (detectAcc s buf ierr).ref ≠ BLC_STATUS_V2_READY →
      (DetectMotors s buf ierr n).blc_feature_bitfield = 0 ∧
      (DetectMotors s buf ierr n).setpoint_length = 1) := by
  refine ⟨fun h => ?_, fun h => ?_, fun h => ?_, fun h1 h2 h3 => ?_⟩ <;>
    rw [DetectMotors_feat, DetectMotors_splen, hf, hl]
  · simp [blcFeatureCascade, h]
  · have hne : (detectAcc s buf ierr).ref ≠ BLC_STATUS_V3_FAST_READY := by
      rw [h]; decide
    simp [blcFeatureCascade, h, hne]
    decide
  · have hne1 : (detectAcc s buf ierr).ref ≠ BLC_STATUS_V3_FAST_READY := by
      rw [h]; decide
    have hne2 : (detectAcc s buf ierr).ref ≠ BLC_STATUS_V3_READY := by
      rw [h]; decide
    simp [blcFeatureCascade, h, hne1, hne2]
    decide
  · simp [blcFeatureCascade, h1, h2, h3]

end Motors

namespace Motors

set_option maxRecDepth 10000 in
theorem DetectMotors_feature_cascade_witness :
    (DetectMotors motorsInit (fun _ => ⟨0, 250, 0, 0, 0, 0, 0, 0, 0⟩)
      (fun _ => false) 3).blc_feature_bitfield =
      BLC_FEATURE_EXTENDED_STATUS ∧
    (DetectMotors motorsInit (fun _ => ⟨0, 250, 0, 0, 0, 0, 0, 0, 0⟩)
      (fun _ => false) 3).setpoint_length = 2 :=
  (DetectMotors_feature_cascade motorsInit
    (fun _ => ⟨0, 250, 0, 0, 0, 0, 0, 0, 0⟩) (fun _ => false) 3
    rfl rfl).2.2.1 (by decide)

set_option maxRecDepth 10000 in
/-- C7 counterexample: with stored motor count 0 the chain does not
issue 0 transactions — the uint8 wrap makes it issue 256 of them. -/
theorem TxMotorSetpoints_zero_count_counterexample :
    (txTransactions 0).length ≠ 0 ∧ (txTransactions 0).length = 256 :=
  ⟨by decide, by decide⟩

/-- C7 (amended to stored counts 1..255): the chain visits exactly the
slot addresses n-1, n-2, ..., 0, each once, strictly descending. -/
theorem TxMotorSetpoints_descending_chain (n : Nat) (h1 : 1 ≤ n)
    (h255 : n ≤ 255) :
    txTransactions n = (List.range n).reverse ∧
    (txTransactions n).length = n ∧
    (txTransactions n).Nodup ∧
    List.Chain' (· > ·) (txTransactions n) := by
  have hc : txStartCursor n = n - 1 := by
    unfold txStartCursor
    omega
  have hr : txTransactions n = (List.range n).reverse := by
    rw [txTransactions, hc, txChainFrom_eq_reverse_range]
    have : n - 1 + 1 = n := by omega
    rw [this]
  refine ⟨hr, ?_, ?_, ?_⟩
  · rw [hr]; simp
  · rw [hr]; simp [List.nodup_range]
  · rw [txTransactions]; exact txChainFrom_chain _

theorem TxMotorSetpoints_descending_chain_witness :
    txTransactions 3 = (List.range 3).reverse ∧
    (txTransactions 3).length = 3 ∧
    (txTransactions 3).Nodup ∧
    List.Chain' (· > ·) (txTransactions 3) :=
  TxMotorSetpoints_descending_chain 3 (by decide) (by decide)

/-- C9: with stored count 0 the cursor is set to 255 (uint8 wrap) and the
first transaction addresses slot 255; the visited addresses stay below
MOTORS_MAX exactly when the stored count is in [1, 8]. -/
theorem TxMotorSetpoints_zero_count_wrap :
    txStartCursor 0 = 255 ∧
    (txTransactions 0).head? = some 255 ∧
    ∀ n : Nat, n ≤ 255 →
      ((∀ a ∈ txTransactions n, a < MOTORS_MAX) ↔
        (1 ≤ n ∧ n ≤ MOTORS_MAX)) := by
  refine ⟨rfl, rfl, fun n hn => ?_⟩
  by_cases hn0 : n = 0
  · subst hn0
    constructor
    · intro hall
      have h255 : (255 : Nat) ∈ txTransactions 0 := by
        rw [txTransactions]
        exact (mem_txChainFrom _ _).mpr (by decide)
      exact absurd (hall 255 h255) (by decide)
    · intro h
      exact absurd h.1 (by decide)
  · have hc : txStartCursor n = n - 1 := by
      unfold txStartCursor
      omega
    constructor
    · intro hall
      have hm : (n - 1) ∈ txTransactions n := by
        rw [txTransactions, hc]
        exact (mem_txChainFrom _ _).mpr le_rfl
      have := hall (n - 1) hm
      unfold MOTORS_MAX at this ⊢
      omega
    · intro h a ha
      rw [txTransactions, hc, mem_txChainFrom] at ha
      unfold MOTORS_MAX at h ⊢
      omega

theorem TxMotorSetpoints_zero_count_wrap_witness :
    (∀ a ∈ txTransactions 8, a < MOTORS_MAX) ↔
      (1 ≤ 8 ∧ 8 ≤ MOTORS_MAX) :=
  TxMotorSetpoints_zero_count_wrap.2.2 8 (by decide)

end Motors

namespace Motors

/-- C8: the error bitfield is monotone — every set bit survives
discovery, setpoint writes, a transmission chain, and the accessor
(which is a pure read). -/
theorem blc_error_bitfield_monotone (s : MotorsState)
    (buf : Fin 8 → BLCStatus) (ierr : Fin 8 → Bool) (n a v : Nat)
    (rx : Fin 8 → BLCStatus) (b : Nat)
    (h : s.blc_error_bitfield.testBit b = true) :
    (DetectMotors s buf ierr n).blc_error_bitfield.testBit b = true ∧
    (SetMotorSetpoint s a v).blc_error_bitfield.testBit b = true ∧
    (TxMotorSetpoints_run s rx).blc_error_bitfield.testBit b = true ∧
    BLCErrorBitfield s = s.blc_error_bitfield := by
  refine ⟨?_, ?_, h, rfl⟩
  · exact DetectMotors_err_testBit_mono s buf ierr n b
      (detectLoopAux_err_mono buf ierr 8 0 _ b h)
  · rw [SetMotorSetpoint_err]
    exact h

set_option maxRecDepth 10000 in
theorem blc_error_bitfield_monotone_witness :
    (DetectMotors motorsInitErr1 (fun _ => ⟨0, 250, 0, 0, 0, 0, 0, 0, 0⟩)
      (fun _ => true) 2).blc_error_bitfield.testBit 0 = true :=
  (blc_error_bitfield_monotone motorsInitErr1
    (fun _ => ⟨0, 250, 0, 0, 0, 0, 0, 0, 0⟩) (fun _ => true) 2 0 100
    (fun _ => ⟨0, 0, 0, 0, 0, 0, 0, 0, 0⟩) 0 (by decide)).1

set_option maxRecDepth 10000 in
/-- C1 (code bug): expected count 2, slot 0 responds (code 250), slot 1
does not — one non-responding slot among the two expected, contiguous
from zero.  The spec requires the missing-motor bit, but line 150
computes `((1 << 2) - 1) & !0b01 = 3 & 0 = 0` (C logical not, not
bitwise not), so no error bit at all is recorded. -/
theorem DetectMotors_missing_motor_bug :
    (DetectMotors motorsInit (fun _ => ⟨0, 250, 0, 0, 0, 0, 0, 0, 0⟩)
      (fun i => decide (0 < i.val)) 2).blc_error_bitfield &&&
      BLC_ERROR_MISSING_MOTOR = 0 ∧
    (DetectMotors motorsInit (fun _ => ⟨0, 250, 0, 0, 0, 0, 0, 0, 0⟩)
      (fun i => decide (0 < i.val)) 2).blc_error_bitfield = 0 := by
  exact ⟨by decide, by decide⟩

set_option maxRecDepth 10000 in
/-- C2 (code bug): expected count 1, slots 0 and 1 respond (slot 1 is an
extra motor beyond the configured count).  The spec requires the
extra-motor bit, but line 152 computes `0b11 & !((1 << 1) - 1) =
3 & !1 = 3 & 0 = 0` (C logical not), so no error bit is recorded. -/
theorem DetectMotors_extra_motor_bug :
    (DetectMotors motorsInit (fun _ => ⟨0, 250, 0, 0, 0, 0, 0, 0, 0⟩)
      (fun i => decide (1 < i.val)) 1).blc_error_bitfield &&&
      BLC_ERROR_EXTRA_MOTOR = 0 ∧
    (DetectMotors motorsInit (fun _ => ⟨0, 250, 0, 0, 0, 0, 0, 0, 0⟩)
      (fun i => decide (1 < i.val)) 1).blc_error_bitfield = 0 := by
  exact ⟨by decide, by decide⟩

end Motors

namespace Motors

set_option maxRecDepth 10000 in
/-- C6 counterexample: the first successfully-probed slot (slot 0)
reports code 0, slot 1 responds with the differing code 40, yet the
inconsistent-settings bit is not set — a code-0 first slot does not
establish the reference. -/
theorem DetectMotors_first_slot_reference_counterexample :
    ierrTwoSlots 0 = false ∧ ierrTwoSlots 1 = false ∧
    (bufRefZero 1).status_code ≠ (bufRefZero 0).status_code ∧
    (DetectMotors motorsInit bufRefZero ierrTwoSlots 2).blc_error_bitfield
      &&& BLC_ERROR_INCONSISTENT_SETTINGS = 0 ∧
    (DetectMotors motorsInit bufRefZero ierrTwoSlots 2).blc_error_bitfield
      = 0 := by
  refine ⟨by decide, by decide, by decide, by decide, by decide⟩

/-- C6 (amended): if all responding slots report one status code the
inconsistent-settings bit is never set; and the first responding slot
with a NON-ZERO status code establishes the reference, after which any
later responding slot with a differing code sets the bit. -/
theorem DetectMotors_inconsistent_settings_amended (s : MotorsState)
    (buf : Fin 8 → BLCStatus) (ierr : Fin 8 → Bool) (n : Nat) :
    ((∀ i j : Fin 8, ierr i = false → ierr j = false →
        (buf i).status_code = (buf j).status_code) →
      (DetectMotors s buf ierr n).blc_error_bitfield &&&
        BLC_ERROR_INCONSISTENT_SETTINGS =
        s.blc_error_bitfield &&& BLC_ERROR_INCONSISTENT_SETTINGS) ∧
    (∀ i j : Fin 8, i < j → ierr i = false → (buf i).status_code ≠ 0 →
      (∀ m : Fin 8, m < i → ierr m = false → (buf m).status_code = 0) →
      ierr j = false → (buf j).status_code ≠ (buf i).status_code →
      (DetectMotors s buf ierr n).blc_error_bitfield &&&
        BLC_ERROR_INCONSISTENT_SETTINGS ≠ 0) := by
  constructor
  · intro hsame
    rw [DetectMotors_err_and_mask s buf ierr n _ (by decide) (by decide)]
    have hloop : (detectAcc s buf ierr).err = s.blc_error_bitfield := by
      by_cases hex : ∃ i : Fin 8, ierr i = false
      · obtain ⟨i0, hi0⟩ := hex
        exact detectLoopAux_all_eq buf ierr 8 0 _ ((buf i0).status_code)
          (Or.inl rfl) (fun m _ hm => hsame m i0 hm hi0)
      · exact detectLoopAux_all_eq buf ierr 8 0 _ 0 (Or.inl rfl)
          (fun m _ hm => absurd ⟨m, hm⟩ hex)
    rw [hloop]
  · intro i j hij hi hinz hzero hj hne
    have hbit : (detectAcc s buf ierr).err.testBit 0 = true :=
      detectLoopAux_first_mismatch buf ierr 8 0 _ i j (by omega)
        (Nat.zero_le _) hij rfl (fun m _ hmi hmr => hzero m hmi hmr)
        hi hinz hj hne
    have hfin := DetectMotors_err_testBit_mono s buf ierr n 0 hbit
    exact (and_one_ne_iff _).mpr hfin

theorem DetectMotors_inconsistent_settings_amended_witness :
    (DetectMotors motorsInit bufTwoCodes ierrTwoSlots 2).blc_error_bitfield
      &&& BLC_ERROR_INCONSISTENT_SETTINGS ≠ 0 :=
  (DetectMotors_inconsistent_settings_amended motorsInit bufTwoCodes
    ierrTwoSlots 2).2 0 1 (by decide) (by decide) (by decide) (by decide)
    (by decide) (by decide)

set_option maxRecDepth 10000 in
/-- C10 counterexample: slot 0 responds with code 40 (establishing the
reference), slot 1 responds with code 0; the code-0 slot IS compared
against the reference and sets the inconsistent-settings bit, so a bus
mixing code-0 controllers with one other code can set the bit. -/
theorem DetectMotors_code0_after_reference_counterexample :
    ierrTwoSlots 0 = false ∧ ierrTwoSlots 1 = false ∧
    (bufZeroAfterRef 0).status_code = 40 ∧
    (bufZeroAfterRef 1).status_code = 0 ∧
    ((DetectMotors motorsInit bufZeroAfterRef ierrTwoSlots 2).blc_error_bitfield
      &&& BLC_ERROR_INCONSISTENT_SETTINGS) ≠ 0 := by
  refine ⟨by decide, by decide, by decide, by decide, by decide⟩

/-- C10 (amended): a responding slot is marked present whatever its code;
the reference is the first responding slot with a non-zero code (so a
code-0 slot never becomes the reference); and a mixed bus of code-0 and
code-c controllers stays free of the inconsistent-settings bit provided
every responding code-0 slot precedes every responding code-c slot. -/
theorem DetectMotors_code0_amended (s : MotorsState)
    (buf : Fin 8 → BLCStatus) (ierr : Fin 8 → Bool) (n : Nat) :
    (∀ i : Fin 8, ierr i = false →
      (detectAcc s buf ierr).motors.testBit i.val = true) ∧
    (∀ i : Fin 8, ierr i = false → (buf i).status_code ≠ 0 →
      (∀ m : Fin 8, m < i → ierr m = false → (buf m).status_code = 0) →
      (detectAcc s buf ierr).ref = (buf i).status_code) ∧
    (∀ c : Nat, c ≠ 0 →
      (∀ i : Fin 8, ierr i = false →
        ((buf i).status_code = 0 ∨ (buf i).status_code = c)) →
      (∀ i j : Fin 8, ierr i = false → ierr j = false →
        (buf i).status_code = 0 → (buf j).status_code = c → i < j) →
      (DetectMotors s buf ierr n).blc_error_bitfield &&&
        BLC_ERROR_INCONSISTENT_SETTINGS =
        s.blc_error_bitfield &&& BLC_ERROR_INCONSISTENT_SETTINGS) := by
  refine ⟨?_, ?_, ?_⟩
  · intro i hi
    exact detectLoopAux_present buf ierr 8 0 _ i (by omega)
      (Nat.zero_le _) hi
  · intro i hi hinz hzero
    exact detectLoopAux_first_ref buf ierr 8 0 _ i (by omega)
      (Nat.zero_le _) rfl (fun m _ hmi hmr => hzero m hmi hmr) hi hinz
  · intro c hc hall hord
    rw [DetectMotors_err_and_mask s buf ierr n _ (by decide) (by decide)]
    have hloop : (detectAcc s buf ierr).err = s.blc_error_bitfield :=
      detectLoopAux_ordered_mixed buf ierr 8 0 _ c hc (Or.inl rfl)
        (fun m _ hmr => hall m hmr)
        (fun m₁ m₂ _ _ e1 e2 b1 b2 => hord m₁ m₂ e1 e2 b1 b2)
    rw [hloop]

theorem DetectMotors_code0_amended_witness :
    ((DetectMotors motorsInit bufZeroThenNine ierrTwoSlots 2).blc_error_bitfield
      &&& BLC_ERROR_INCONSISTENT_SETTINGS) =
      motorsInit.blc_error_bitfield &&& BLC_ERROR_INCONSISTENT_SETTINGS :=
  (DetectMotors_code0_amended motorsInit bufZeroThenNine ierrTwoSlots 2).2.2
    9 (by decide) (by decide) (by decide)

end Motors
